import Mathlib

/-!
Shallow embedding of the verji-ai-agent bot core (crate verji-vagent-bot):
the Redis correlation engine (src/redis_client.rs), the responder dispatch
chain (src/responder_manager.rs, src/responder.rs) and the two concrete
responders (src/responders/pingpong.rs, src/responders/verji_agent.rs).

Conventions of the embedding:
- Rust String is Lean String; the Rust calls trim() and to_lowercase() are
  modelled at the character-list level (structurally recursive, so they
  evaluate inside the kernel).
- The asynchronous pubsub wait loop is modelled as a structurally recursive
  function over the list of poll outcomes it observes: each list element is
  either a delivered payload or an empty one-second poll window.  Payloads are
  classified up front by which serde parse succeeds (new GraphMessage format,
  legacy GraphResponse format, or neither), which models the ordered
  try-parse of the source.
- The on_progress callback is modelled by returning, next to the result, the
  list of contents it was invoked with, in invocation order.
- anyhow::Result is Except String; fresh UUID generation is abstracted by
  taking the request id as a parameter.
-/

namespace VerjiBot

/-- Models Rust str::trim as used on message bodies: drop whitespace from
both ends of the character sequence. -/
def trimModel (s : String) : String :=
  ⟨List.reverse (List.dropWhile Char.isWhitespace
    (List.reverse (List.dropWhile Char.isWhitespace s.data)))⟩

/-- Models Rust String::to_lowercase on message bodies: lowercase each
character. -/
def toLowerModel (s : String) : String :=
  ⟨s.data.map Char.toLower⟩

/-! Data model of src/redis_client.rs -/

/-- GraphMessageType, redis_client.rs lines 27-38: the kind of a message
received from vagent-graph. -/
inductive GraphMessageType where
  | Progress
  | FinalResponse
  | HitlRequest
  | Error
deriving DecidableEq, Repr

/-- GraphMessage, redis_client.rs lines 41-48: a (streaming or final) message
received from vagent-graph.  The opaque serde_json::Value metadata is stood in
for by an optional string; no modelled code inspects it. -/
structure GraphMessage where
  request_id : String
  message_type : GraphMessageType
  content : String
  metadata : Option String
deriving DecidableEq, Repr

/-- GraphResponse, redis_client.rs lines 51-58: the legacy response shape
accepted for backward compatibility. -/
structure GraphResponse where
  request_id : String
  response : String
  status : String
  error : Option String
deriving DecidableEq, Repr

/-- Conversion of a matching legacy GraphResponse into a GraphMessage, as
performed inline in wait_for_final_response_with_pubsub, redis_client.rs
lines 254-266: status "error" maps to the Error kind, anything else to
FinalResponse, and the content is taken from the response field. -/
def legacyToGraphMessage (r : GraphResponse) : GraphMessage :=
  { request_id := r.request_id
  , message_type := if r.status = "error" then .Error else .FinalResponse
  , content := r.response
  , metadata := none }

/-- Classification of one payload delivered on the response channel, by which
parse succeeds in the ordered try-parse of redis_client.rs lines 227-251:
serde_json::from_str::GraphMessage first, then the legacy
serde_json::from_str::GraphResponse, else neither (malformed or unrelated
traffic). -/
inductive BusPayload where
  | newFormat (m : GraphMessage)
  | legacyFormat (r : GraphResponse)
  | malformed
deriving DecidableEq, Repr

/-- One iteration outcome of the poll loop of redis_client.rs lines 206-221:
either the one-second tokio::time::timeout window delivered a payload, or it
elapsed empty (adding one second to the elapsed clock). -/
inductive PollEvent where
  | msg (p : BusPayload)
  | pollTimeout
deriving DecidableEq, Repr

/-- Result of the wait loop: the overall-deadline bailout (redis_client.rs
line 208), the stream-ended bailout (line 215), or the returned final
GraphMessage. -/
inductive WaitResult where
  | timeout
  | streamEnded
  | final (m : GraphMessage)
deriving DecidableEq, Repr

/-- The overall deadline of the wait loop, redis_client.rs line 200:
Duration::from_secs(30), measured in the one-second units of the poll
windows. -/
def timeout_duration : Nat := 30

/-- Embedding of RedisGraphClient::wait_for_final_response_with_pubsub,
redis_client.rs lines 189-275, as a function of the elapsed whole seconds so
far and the remaining poll outcomes.  Returns the contents passed to
on_progress, in invocation order, together with the loop result.
Each loop iteration first checks the overall deadline (line 207), then
inspects the next poll outcome: an empty poll window advances the clock and
continues (lines 217-220); a payload parsing as GraphMessage with matching
request_id either records a Progress content and continues (lines 232-237) or
returns the terminal message (lines 238-243); a matching legacy payload is
converted and returned (lines 251-267); everything else is discarded and the
loop continues (lines 246-247 and 269-272). -/
def wait_for_final_response (request_id : String) :
    Nat → List PollEvent → List String × WaitResult
  | elapsed, [] =>
    if elapsed > timeout_duration then ([], .timeout) else ([], .streamEnded)
  | elapsed, e :: rest =>
    if elapsed > timeout_duration then ([], .timeout)
    else
      match e with
      | .pollTimeout => wait_for_final_response request_id (elapsed + 1) rest
      | .msg (.newFormat m) =>
        if m.request_id = request_id then
          match m.message_type with
          | .Progress =>
            let next := wait_for_final_response request_id elapsed rest
            (m.content :: next.1, next.2)
          | .FinalResponse => ([], .final m)
          | .HitlRequest => ([], .final m)
          | .Error => ([], .final m)
        else wait_for_final_response request_id elapsed rest
      | .msg (.legacyFormat r) =>
        if r.request_id = request_id then ([], .final (legacyToGraphMessage r))
        else wait_for_final_response request_id elapsed rest
      | .msg .malformed => wait_for_final_response request_id elapsed rest

/-- Embedding of RedisGraphClient::query_with_streaming, redis_client.rs
lines 111-180, from the wait loop onward: run the wait, then map the final
message kind to the returned text (lines 162-179).  An Error kind yields a
successful return of an error-annotated string (line 168); FinalResponse and
HitlRequest yield the content (lines 170-173); the (unreachable) Progress arm
also yields the content (lines 174-178).  Loop failures are propagated as
errors, mirroring the anyhow bail messages of lines 208 and 215. -/
def query_with_streaming (request_id : String) (events : List PollEvent) :
    List String × Except String String :=
  let res := wait_for_final_response request_id 0 events
  match res.2 with
  | .timeout => (res.1, .error "Timeout waiting for response from vagent-graph")
  | .streamEnded => (res.1, .error "Pubsub stream ended unexpectedly")
  | .final m =>
    match m.message_type with
    | .Error => (res.1, .ok ("Error: " ++ m.content))
    | .FinalResponse => (res.1, .ok m.content)
    | .HitlRequest => (res.1, .ok m.content)
    | .Progress => (res.1, .ok m.content)

/-- Specification-side projection used to state correlation claims: the
GraphMessage a poll outcome contributes for the given request id, if any.
A payload in the new format contributes itself when its request_id matches; a
legacy payload contributes its conversion when its request_id matches;
non-matching, malformed and empty-window outcomes contribute nothing. -/
def matchingMessage (request_id : String) : PollEvent → Option GraphMessage
  | .msg (.newFormat m) => if m.request_id = request_id then some m else none
  | .msg (.legacyFormat r) =>
    if r.request_id = request_id then some (legacyToGraphMessage r) else none
  | .msg .malformed => none
  | .pollTimeout => none

/-- Specification-side predicate: the poll outcome carries a terminal
(non-Progress) message for the given request id. -/
def isMatchingTerminal (request_id : String) (e : PollEvent) : Bool :=
  match matchingMessage request_id e with
  | some m => m.message_type != .Progress
  | none => false

/-! Data model of src/responder.rs -/

/-- ResponderContext, responder.rs lines 7-20.  The matrix_sdk Client and
Room handles are external transport objects never inspected by the modelled
code paths; the room is represented by its room id string, which is all the
modelled code reads from it. -/
structure ResponderContext where
  sender : String
  room_id : String
  message_body : String
  is_direct_mention : Bool
  registered_responders : List (String × Int)

/-- ResponderResult, responder.rs lines 23-28. -/
inductive ResponderResult where
  | Handled (response : Option String)
  | NotHandled
deriving DecidableEq, Repr

/-- The Responder trait, responder.rs lines 32-49, as a record of its four
capabilities.  should_handle and handle are pure functions of the context in
this embedding; a fallible handle returns Except. -/
structure Responder where
  name : String
  priority : Int
  should_handle : ResponderContext → Bool
  handle : ResponderContext → Except String ResponderResult

/-! Data model of src/responder_manager.rs -/

/-- ResponderManager, responder_manager.rs lines 8-10. -/
structure ResponderManager where
  responders : List Responder

/-- The comparator of responder_manager.rs line 32,
sort_by(|a, b| b.priority().cmp(&a.priority())): a may come before b exactly
when the priority of b is at most the priority of a (descending order). -/
def byPriorityDesc (a b : Responder) : Bool := b.priority ≤ a.priority

/-- ResponderManager::new, responder_manager.rs lines 14-18. -/
def ResponderManager.new : ResponderManager := { responders := [] }

/-- ResponderManager::register, responder_manager.rs lines 22-33: push the
responder, then re-sort by descending priority.  Rust Vec::sort_by is a
stable sort, modelled by the stable List.mergeSort. -/
def ResponderManager.register (m : ResponderManager) (r : Responder) :
    ResponderManager :=
  { responders := (m.responders ++ [r]).mergeSort byPriorityDesc }

/-- Registration of a whole sequence of responders, in order, starting from
the empty manager. -/
def registerAll (rs : List Responder) : ResponderManager :=
  rs.foldl ResponderManager.register ResponderManager.new

/-- The dispatch loop of ResponderManager::process_message,
responder_manager.rs lines 43-73, instrumented to also return the list of
responders whose handle step was invoked, in invocation order: for each
responder in order, if should_handle is false skip it (lines 51, 67-69);
otherwise invoke handle; Handled(response) short-circuits with that response
(lines 55-58), NotHandled continues with the next responder (lines 59-65),
and a handle failure is propagated immediately by the question-mark operator
on line 54. -/
def dispatchChain : List Responder → ResponderContext →
    List Responder × Except String (Option String)
  | [], _ => ([], Except.ok none)
  | r :: rest, context =>
    if r.should_handle context then
      match r.handle context with
      | .ok (.Handled response) => ([r], .ok response)
      | .ok .NotHandled =>
        let next := dispatchChain rest context
        (r :: next.1, next.2)
      | .error e => ([r], .error e)
    else dispatchChain rest context

/-- ResponderManager::process_message, responder_manager.rs lines 37-74:
run the dispatch loop over the registered responders; if no responder handles
the message the loop falls through to Ok(None) (line 73). -/
def ResponderManager.process_message (m : ResponderManager)
    (context : ResponderContext) : Except String (Option String) :=
  (dispatchChain m.responders context).2

/-! Concrete responders -/

/-- PingPongResponder, responders/pingpong.rs lines 7-33: name (line 18),
priority 100 (line 22), should_handle true iff the trimmed lowercased body is
"ping" or "!ping" (lines 25-28), handle always Handled(Some("Pong!"))
(lines 30-32). -/
def pingPongResponder : Responder where
  name := "PingPongResponder"
  priority := 100
  should_handle := fun context =>
    let msg := toLowerModel (trimModel context.message_body)
    msg == "ping" || msg == "!ping"
  handle := fun _ => .ok (.Handled (some "Pong!"))

/-- Outcome of the bridge interaction inside VerjiAgentResponder::handle:
either ensure_connected failed (responders/verji_agent.rs lines 90-97), or
the query call returned Ok (lines 157-161), or the query call returned Err,
covering connection and timeout failures alike (lines 162-169). -/
inductive BridgeOutcome where
  | connectFailed (message : String)
  | queryOk (response : String)
  | queryFailed (message : String)
deriving DecidableEq, Repr

/-- VerjiAgentResponder::handle, responders/verji_agent.rs lines 83-171, as a
function of the context and the bridge outcome: a connection failure yields
the offline-mode echo of the original body (lines 91-96), a successful query
yields its response (lines 158-160), and a failed query yields the
degraded-mode echo of the original body (lines 163-168).  Every arm returns
Ok(Handled(Some(..))). -/
def verjiAgentHandle (context : ResponderContext) (outcome : BridgeOutcome) :
    Except String ResponderResult :=
  match outcome with
  | .connectFailed _ =>
    .ok (.Handled (some ("[Offline Mode - Redis unavailable]\nYou said: "
      ++ context.message_body)))
  | .queryOk response => .ok (.Handled (some response))
  | .queryFailed _ =>
    .ok (.Handled (some ("[Error communicating with AI service]\nYou said: "
      ++ context.message_body)))

/-- VerjiAgentResponder as a Responder value, responders/verji_agent.rs
lines 68-81: name (line 70), priority 10 (line 75), should_handle always true
(lines 78-81), handle given by verjiAgentHandle under the stated bridge
outcome. -/
def verjiAgentResponder (outcome : BridgeOutcome) : Responder where
  name := "VerjiAgentResponder"
  priority := 10
  should_handle := fun _ => true
  handle := fun context => verjiAgentHandle context outcome

/-! Effect order of query_with_streaming (redis_client.rs lines 136-158) -/

/-- RedisGraphClient, redis_client.rs lines 81-86, restricted to the channel
names the modelled code reads; RedisGraphClient::new sets them at
lines 102-103. -/
structure RedisGraphClient where
  request_channel : String
  response_channel : String

/-- RedisGraphClient::new, redis_client.rs lines 90-105: the channel names it
configures. -/
def RedisGraphClient.new : RedisGraphClient where
  request_channel := "vagent:requests"
  response_channel := "vagent:responses"

/-- One externally visible bus effect of query_with_streaming. -/
inductive BridgeAction where
  | subscribeStep (channel : String)
  | publishStep (channel : String)
  | awaitStep
deriving DecidableEq, Repr

/-- The bus effects of RedisGraphClient::query_with_streaming in program
order, redis_client.rs lines 136-158: subscribe to the response channel
(lines 140-143), then publish the serialized request on the request channel
(lines 147-152), then wait for the correlated response (lines 156-158). -/
def query_effect_trace (c : RedisGraphClient) : List BridgeAction :=
  [ .subscribeStep c.response_channel
  , .publishStep c.request_channel
  , .awaitStep ]

/-! Helper lemmas -/

/-- A legacy response never converts to a Progress-kind message: the
conversion only produces the Error and FinalResponse kinds. -/
theorem legacyToGraphMessage_not_progress (r : GraphResponse) :
    (legacyToGraphMessage r).message_type ≠ GraphMessageType.Progress := by
  simp only [legacyToGraphMessage]
  split <;> simp

/-- Once the elapsed clock exceeds the overall deadline, the wait loop bails
out with a timeout regardless of the remaining poll outcomes. -/
theorem wait_elapsed_timeout (request_id : String) (elapsed : Nat)
    (events : List PollEvent) (h : elapsed > timeout_duration) :
    wait_for_final_response request_id elapsed events = ([], .timeout) := by
  cases events <;> simp [wait_for_final_response, h]

/-- Invariant of the wait loop: every final message it returns carries the
awaited request id and is not of the Progress kind. -/
theorem wait_final_inv (request_id : String) :
    ∀ (events : List PollEvent) (elapsed : Nat) (ps : List String)
      (m : GraphMessage),
    wait_for_final_response request_id elapsed events = (ps, .final m) →
    m.request_id = request_id
    ∧ m.message_type ≠ GraphMessageType.Progress := by
  intro events
  induction events with
  | nil =>
    intro elapsed ps m h
    by_cases hg : elapsed > timeout_duration <;>
      simp [wait_for_final_response, hg] at h
  | cons e rest ih =>
    intro elapsed ps m h
    by_cases hg : elapsed > timeout_duration
    · simp [wait_for_final_response, hg] at h
    · cases e with
      | pollTimeout =>
        simp only [wait_for_final_response, if_neg hg] at h
        exact ih _ _ _ h
      | msg p =>
        cases p with
        | newFormat mm =>
          by_cases hid : mm.request_id = request_id
          · cases htype : mm.message_type with
            | Progress =>
              simp only [wait_for_final_response, if_neg hg, hid, if_true,
                htype] at h
              have h2 : (wait_for_final_response request_id elapsed rest).2
                  = .final m := by
                have := congrArg Prod.snd h
                simpa using this
              exact ih elapsed
                (wait_for_final_response request_id elapsed rest).1 m
                (by rw [← h2])
            | FinalResponse =>
              simp only [wait_for_final_response, if_neg hg, hid, if_true,
                htype] at h
              have hm : m = mm := by
                have := congrArg Prod.snd h
                simpa using this.symm
              subst hm
              exact ⟨hid, by simp [htype]⟩
            | HitlRequest =>
              simp only [wait_for_final_response, if_neg hg, hid, if_true,
                htype] at h
              have hm : m = mm := by
                have := congrArg Prod.snd h
                simpa using this.symm
              subst hm
              exact ⟨hid, by simp [htype]⟩
            | Error =>
              simp only [wait_for_final_response, if_neg hg, hid, if_true,
                htype] at h
              have hm : m = mm := by
                have := congrArg Prod.snd h
                simpa using this.symm
              subst hm
              exact ⟨hid, by simp [htype]⟩
          · simp only [wait_for_final_response, if_neg hg, hid, if_false] at h
            exact ih _ _ _ h
        | legacyFormat r =>
          by_cases hid : r.request_id = request_id
          · simp only [wait_for_final_response, if_neg hg, hid, if_true] at h
            have hm : m = legacyToGraphMessage r := by
              have := congrArg Prod.snd h
              simpa using this.symm
            subst hm
            exact ⟨hid ▸ rfl, legacyToGraphMessage_not_progress r⟩
          · simp only [wait_for_final_response, if_neg hg, hid, if_false] at h
            exact ih _ _ _ h
        | malformed =>
          simp only [wait_for_final_response, if_neg hg] at h
          exact ih _ _ _ h

/-- The wait loop ignores a poll outcome that contributes no matching
message: a payload with a non-matching request id (in either format) or a
malformed payload is discarded and the wait continues unchanged. -/
theorem wait_skips_unmatched (request_id : String) (e : PollEvent)
    (events : List PollEvent) (elapsed : Nat)
    (hnone : matchingMessage request_id e = none)
    (hpoll : e ≠ PollEvent.pollTimeout) :
    wait_for_final_response request_id elapsed (e :: events)
      = wait_for_final_response request_id elapsed events := by
  by_cases hg : elapsed > timeout_duration
  · rw [wait_elapsed_timeout request_id elapsed (e :: events) hg,
      wait_elapsed_timeout request_id elapsed events hg]
  · cases e with
    | pollTimeout => exact absurd rfl hpoll
    | msg p =>
      cases p with
      | newFormat mm =>
        have hid : ¬ (mm.request_id = request_id) := by
          intro hid
          simp [matchingMessage, hid] at hnone
        simp [wait_for_final_response, hg, hid]
      | legacyFormat r =>
        have hid : ¬ (r.request_id = request_id) := by
          intro hid
          simp [matchingMessage, hid] at hnone
        simp [wait_for_final_response, hg, hid]
      | malformed => simp [wait_for_final_response, hg]

/-- When no poll outcome carries a matching terminal message, the wait loop
never resolves with a final message: it can only hit the overall deadline or
run out of stream. -/
theorem wait_no_terminal_no_final (request_id : String) :
    ∀ (events : List PollEvent) (elapsed : Nat),
    (∀ e ∈ events, isMatchingTerminal request_id e = false) →
    (wait_for_final_response request_id elapsed events).2 = .timeout
    ∨ (wait_for_final_response request_id elapsed events).2 = .streamEnded := by
  intro events
  induction events with
  | nil =>
    intro elapsed _
    by_cases hg : elapsed > timeout_duration <;>
      simp [wait_for_final_response, hg]
  | cons e rest ih =>
    intro elapsed hno
    by_cases hg : elapsed > timeout_duration
    · left
      simp [wait_for_final_response, hg]
    · have hrest : ∀ x ∈ rest, isMatchingTerminal request_id x = false :=
        fun x hx => hno x (List.mem_cons_of_mem e hx)
      have he := hno e (List.mem_cons_self e rest)
      cases e with
      | pollTimeout =>
        simp only [wait_for_final_response, if_neg hg]
        exact ih _ hrest
      | msg p =>
        cases p with
        | newFormat mm =>
          by_cases hid : mm.request_id = request_id
          · have hprog : mm.message_type = GraphMessageType.Progress := by
              simpa [isMatchingTerminal, matchingMessage, hid] using he
            simp only [wait_for_final_response, if_neg hg, hid, if_true, hprog]
            simpa using ih elapsed hrest
          · simp only [wait_for_final_response, if_neg hg, hid, if_false]
            exact ih _ hrest
        | legacyFormat r =>
          by_cases hid : r.request_id = request_id
          · exfalso
            have : (legacyToGraphMessage r).message_type
                = GraphMessageType.Progress := by
              simpa [isMatchingTerminal, matchingMessage, hid] using he
            exact legacyToGraphMessage_not_progress r this
          · simp only [wait_for_final_response, if_neg hg, hid, if_false]
            exact ih _ hrest
        | malformed =>
          simp only [wait_for_final_response, if_neg hg]
          exact ih _ hrest

/-- If the poll outcomes contain no matching terminal message and the empty
one-second poll windows push the elapsed clock past the overall deadline, the
wait loop ends in timeout. -/
theorem wait_timeout_of_no_terminal (request_id : String) :
    ∀ (events : List PollEvent) (elapsed : Nat),
    (∀ e ∈ events, isMatchingTerminal request_id e = false) →
    timeout_duration
      < elapsed + events.countP (fun e => e == PollEvent.pollTimeout) →
    (wait_for_final_response request_id elapsed events).2 = .timeout := by
  intro events
  induction events with
  | nil =>
    intro elapsed _ htime
    simp only [List.countP_nil, Nat.add_zero] at htime
    simp [wait_for_final_response, htime]
  | cons e rest ih =>
    intro elapsed hno htime
    by_cases hg : elapsed > timeout_duration
    · simp [wait_for_final_response, hg]
    · have hrest : ∀ x ∈ rest, isMatchingTerminal request_id x = false :=
        fun x hx => hno x (List.mem_cons_of_mem e hx)
      have he := hno e (List.mem_cons_self e rest)
      cases e with
      | pollTimeout =>
        simp only [wait_for_final_response, if_neg hg]
        apply ih (elapsed + 1) hrest
        rw [List.countP_cons] at htime
        simp only [beq_self_eq_true, if_true] at htime
        omega
      | msg p =>
        have hcount : ((PollEvent.msg p) == PollEvent.pollTimeout) = false := by
          rw [beq_eq_false_iff_ne]
          exact fun hcontra => PollEvent.noConfusion hcontra
        simp only [List.countP_cons, hcount, if_false, Bool.false_eq_true,
          Nat.add_zero] at htime
        cases p with
        | newFormat mm =>
          by_cases hid : mm.request_id = request_id
          · have hprog : mm.message_type = GraphMessageType.Progress := by
              simpa [isMatchingTerminal, matchingMessage, hid] using he
            simp only [wait_for_final_response, if_neg hg, hid, if_true, hprog]
            simpa using ih elapsed hrest htime
          · simp only [wait_for_final_response, if_neg hg, hid, if_false]
            exact ih _ hrest htime
        | legacyFormat r =>
          by_cases hid : r.request_id = request_id
          · exfalso
            have : (legacyToGraphMessage r).message_type
                = GraphMessageType.Progress := by
              simpa [isMatchingTerminal, matchingMessage, hid] using he
            exact legacyToGraphMessage_not_progress r this
          · simp only [wait_for_final_response, if_neg hg, hid, if_false]
            exact ih _ hrest htime
        | malformed =>
          simp only [wait_for_final_response, if_neg hg]
          exact ih _ hrest htime

/-- Core correlation lemma: if the poll outcomes contain no empty windows and
the matching traffic consists of progress messages followed by a single
terminal message, the wait loop reports exactly the progress contents, in
arrival order, and returns that terminal message. -/
theorem wait_progress_then_terminal (request_id : String) :
    ∀ (events : List PollEvent) (elapsed : Nat),
    elapsed ≤ timeout_duration →
    PollEvent.pollTimeout ∉ events →
    ∀ (pms : List GraphMessage) (t : GraphMessage),
    events.filterMap (matchingMessage request_id) = pms ++ [t] →
    (∀ mm ∈ pms, mm.message_type = GraphMessageType.Progress) →
    t.message_type ≠ GraphMessageType.Progress →
    wait_for_final_response request_id elapsed events
      = (pms.map GraphMessage.content, .final t) := by
  intro events
  induction events with
  | nil =>
    intro elapsed _ _ pms t hm _ _
    simp at hm
  | cons e rest ih =>
    intro elapsed hel hnt pms t hm hpms ht
    have hng : ¬ (elapsed > timeout_duration) := by omega
    have hent : e ≠ PollEvent.pollTimeout :=
      fun hee => hnt (hee ▸ List.mem_cons_self e rest)
    have hrest : PollEvent.pollTimeout ∉ rest :=
      fun hr => hnt (List.mem_cons_of_mem e hr)
    cases e with
    | pollTimeout => exact absurd rfl hent
    | msg p =>
      cases p with
      | newFormat mm =>
        by_cases hid : mm.request_id = request_id
        · have hm2 : mm :: rest.filterMap (matchingMessage request_id)
              = pms ++ [t] := by
            simpa [matchingMessage, hid] using hm
          cases pms with
          | nil =>
            rw [List.nil_append] at hm2
            simp only [List.cons.injEq] at hm2
            obtain ⟨hmt, -⟩ := hm2
            subst hmt
            cases htype : mm.message_type with
            | Progress => exact absurd htype ht
            | FinalResponse => simp [wait_for_final_response, hng, hid, htype]
            | HitlRequest => simp [wait_for_final_response, hng, hid, htype]
            | Error => simp [wait_for_final_response, hng, hid, htype]
          | cons pm pms2 =>
            simp only [List.cons_append, List.cons.injEq] at hm2
            obtain ⟨hmp, hres⟩ := hm2
            subst hmp
            have hprog : mm.message_type = GraphMessageType.Progress :=
              hpms mm (List.mem_cons_self mm pms2)
            have hnext := ih elapsed hel hrest pms2 t hres
              (fun x hx => hpms x (List.mem_cons_of_mem mm hx)) ht
            simp [wait_for_final_response, hng, hid, hprog, hnext]
        · have hm2 : rest.filterMap (matchingMessage request_id)
              = pms ++ [t] := by
            simpa [matchingMessage, hid] using hm
          have hnext := ih elapsed hel hrest pms t hm2 hpms ht
          simp [wait_for_final_response, hng, hid, hnext]
      | legacyFormat r =>
        by_cases hid : r.request_id = request_id
        · have hm2 : legacyToGraphMessage r
              :: rest.filterMap (matchingMessage request_id) = pms ++ [t] := by
            simpa [matchingMessage, hid] using hm
          cases pms with
          | nil =>
            rw [List.nil_append] at hm2
            simp only [List.cons.injEq] at hm2
            obtain ⟨hmt, -⟩ := hm2
            simp [wait_for_final_response, hng, hid, hmt]
          | cons pm pms2 =>
            simp only [List.cons_append, List.cons.injEq] at hm2
            obtain ⟨hmp, -⟩ := hm2
            exact absurd (hmp ▸ hpms pm (List.mem_cons_self pm pms2))
              (legacyToGraphMessage_not_progress r)
        · have hm2 : rest.filterMap (matchingMessage request_id)
              = pms ++ [t] := by
            simpa [matchingMessage, hid] using hm
          have hnext := ih elapsed hel hrest pms t hm2 hpms ht
          simp [wait_for_final_response, hng, hid, hnext]
      | malformed =>
        have hm2 : rest.filterMap (matchingMessage request_id)
            = pms ++ [t] := by
          simpa [matchingMessage] using hm
        have hnext := ih elapsed hel hrest pms t hm2 hpms ht
        simp [wait_for_final_response, hng, hnext]

/-- The registration comparator is transitive. -/
theorem byPriorityDesc_trans (a b c : Responder)
    (h1 : byPriorityDesc a b = true) (h2 : byPriorityDesc b c = true) :
    byPriorityDesc a c = true := by
  simp only [byPriorityDesc, decide_eq_true_eq] at *
  omega

/-- The registration comparator is total. -/
theorem byPriorityDesc_total (a b : Responder) :
    (byPriorityDesc a b || byPriorityDesc b a) = true := by
  simp only [byPriorityDesc, Bool.or_eq_true, decide_eq_true_eq]
  omega

/-- Stability of the registration sort, phrased through filtering: for every
priority value, the responders holding that priority appear in the sorted
list exactly in their original order. -/
theorem mergeSort_filter_priority (l : List Responder) (p : Int) :
    (l.mergeSort byPriorityDesc).filter (fun r => r.priority == p)
      = l.filter (fun r => r.priority == p) := by
  have hsub : (l.filter (fun r => r.priority == p)).Sublist l :=
    List.filter_sublist l
  have hpair : (l.filter (fun r => r.priority == p)).Pairwise
      (fun a b => byPriorityDesc a b = true) := by
    have hall : ∀ r ∈ l.filter (fun r => r.priority == p), r.priority = p := by
      intro r hr
      have := (List.mem_filter.mp hr).2
      simpa using this
    refine List.pairwise_of_forall_mem_list ?_
    intro a ha b hb
    simp only [byPriorityDesc, decide_eq_true_eq, hall a ha, hall b hb]
    omega
  have h1 : (l.filter (fun r => r.priority == p)).Sublist
      (l.mergeSort byPriorityDesc) :=
    List.sublist_mergeSort byPriorityDesc_trans byPriorityDesc_total hpair hsub
  have h2 : (l.filter (fun r => r.priority == p)).Sublist
      ((l.mergeSort byPriorityDesc).filter (fun r => r.priority == p)) := by
    have := h1.filter (fun r => r.priority == p)
    simpa [List.filter_filter] using this
  have hperm : ((l.mergeSort byPriorityDesc).filter
      (fun r => r.priority == p)).Perm
      (l.filter (fun r => r.priority == p)) :=
    (List.mergeSort_perm l byPriorityDesc).filter _
  exact (h2.eq_of_length hperm.length_eq.symm).symm

/-- Registering a batch of responders keeps the list sorted by descending
priority, provided the starting list already is. -/
theorem registerAll_go_sorted (regs : List Responder) (m : ResponderManager)
    (hm : m.responders.Pairwise (fun a b => byPriorityDesc a b = true)) :
    ((regs.foldl ResponderManager.register m).responders).Pairwise
      (fun a b => byPriorityDesc a b = true) := by
  induction regs generalizing m with
  | nil => exact hm
  | cons r rs ih =>
    exact ih (m.register r)
      (List.sorted_mergeSort byPriorityDesc_trans byPriorityDesc_total _)

/-- Registering a batch of responders produces a permutation of the starting
list followed by the batch. -/
theorem registerAll_go_perm (regs : List Responder) (m : ResponderManager) :
    ((regs.foldl ResponderManager.register m).responders).Perm
      (m.responders ++ regs) := by
  induction regs generalizing m with
  | nil => simp
  | cons r rs ih =>
    refine ((ih (m.register r)).trans ?_)
    have h1 : ((m.register r).responders ++ rs).Perm
        ((m.responders ++ [r]) ++ rs) :=
      (List.mergeSort_perm (m.responders ++ [r]) byPriorityDesc).append_right rs
    refine h1.trans ?_
    simp

/-- Registering a batch of responders preserves, for every priority value,
the original relative order of the responders of that priority. -/
theorem registerAll_go_filter (p : Int) (regs : List Responder)
    (m : ResponderManager) :
    ((regs.foldl ResponderManager.register m).responders).filter
        (fun r => r.priority == p)
      = m.responders.filter (fun r => r.priority == p)
        ++ regs.filter (fun r => r.priority == p) := by
  induction regs generalizing m with
  | nil => simp
  | cons r rs ih =>
    rw [List.foldl_cons, ih (m.register r)]
    have hreg : (m.register r).responders
        = (m.responders ++ [r]).mergeSort byPriorityDesc := rfl
    rw [hreg, mergeSort_filter_priority, List.filter_append]
    cases h : (r.priority == p) <;>
      simp [List.filter_cons, h, List.append_assoc]

/-- Every responder whose handle step the dispatch loop invokes passed its
should_handle check. -/
theorem dispatchChain_invoked_should_handle (context : ResponderContext) :
    ∀ (rs : List Responder) (r : Responder),
    r ∈ (dispatchChain rs context).1 → r.should_handle context = true := by
  intro rs
  induction rs with
  | nil =>
    intro r hr
    simp [dispatchChain] at hr
  | cons r0 rest ih =>
    intro r hr
    by_cases h : r0.should_handle context
    · cases hh : r0.handle context with
      | ok v =>
        cases v with
        | Handled resp =>
          simp [dispatchChain, h, hh] at hr
          subst hr
          exact h
        | NotHandled =>
          simp [dispatchChain, h, hh] at hr
          rcases hr with hr | hr
          · subst hr
            exact h
          · exact ih r hr
      | error e =>
        simp [dispatchChain, h, hh] at hr
        subst hr
        exact h
    · simp only [dispatchChain, if_neg h] at hr
      exact ih r hr

/-- The dispatch loop returns the reply of the first responder that passes
its check and yields Handled, provided every earlier responder either fails
its check or yields NotHandled. -/
theorem dispatchChain_first_handled (context : ResponderContext) :
    ∀ (pre : List Responder) (r : Responder) (post : List Responder)
      (reply : Option String),
    (∀ rr ∈ pre, rr.should_handle context = false
      ∨ rr.handle context = .ok .NotHandled) →
    r.should_handle context = true →
    r.handle context = .ok (.Handled reply) →
    (dispatchChain (pre ++ r :: post) context).2 = .ok reply := by
  intro pre
  induction pre with
  | nil =>
    intro r post reply _ hs hh
    simp [dispatchChain, hs, hh]
  | cons q qre ih =>
    intro r post reply hpre hs hh
    have hq := hpre q (List.mem_cons_self q qre)
    have hnext := ih r post reply
      (fun rr hrr => hpre rr (List.mem_cons_of_mem q hrr)) hs hh
    rcases hq with hq | hq
    · simp only [List.cons_append, dispatchChain, hq, Bool.false_eq_true,
        if_false]
      exact hnext
    · by_cases hqs : q.should_handle context
      · simp only [List.cons_append, dispatchChain, hqs, if_true, hq]
        exact hnext
      · simp only [List.cons_append, dispatchChain, hqs, Bool.false_eq_true,
          if_false]
        exact hnext

/-- When every responder either fails its check or yields NotHandled, the
dispatch loop falls through and returns no reply. -/
theorem dispatchChain_none (context : ResponderContext) :
    ∀ (rs : List Responder),
    (∀ r ∈ rs, r.should_handle context = false
      ∨ r.handle context = .ok .NotHandled) →
    (dispatchChain rs context).2 = .ok none := by
  intro rs
  induction rs with
  | nil =>
    intro _
    simp [dispatchChain]
  | cons q rest ih =>
    intro h
    have hq := h q (List.mem_cons_self q rest)
    have hnext := ih (fun r hr => h r (List.mem_cons_of_mem q hr))
    rcases hq with hq | hq
    · simp only [dispatchChain, hq, Bool.false_eq_true, if_false]
      exact hnext
    · by_cases hqs : q.should_handle context
      · simp only [dispatchChain, hqs, if_true, hq]
        exact hnext
      · simp only [dispatchChain, hqs, Bool.false_eq_true, if_false]
        exact hnext

/-- C2 counterexample input: a legacy response whose error field differs from
its response field. -/
def c2LegacyInput : GraphResponse :=
  { request_id := "rid-2", response := "R", status := "error", error := some "E" }

/-- C2 fails as stated: on a legacy response with status "error" whose error
field (here "E") differs from its response field (here "R"), the wait
resolves to an Error-kind terminal message whose content is the response
field, not the error field. -/
theorem C2_counterexample :
    wait_for_final_response "rid-2" 0 [.msg (.legacyFormat c2LegacyInput)]
      = ([], .final
          { request_id := "rid-2", message_type := .Error
          , content := "R", metadata := none })
    ∧ (wait_for_final_response "rid-2" 0 [.msg (.legacyFormat c2LegacyInput)]).2
        ≠ .final
          { request_id := "rid-2", message_type := .Error
          , content := "E", metadata := none } := by
  constructor
  · decide
  · decide

/-- C2 (amended): when the correlation engine receives a legacy-format
response whose status field is "error" and whose request_id matches the
outstanding request, it resolves the wait as an Error-kind terminal message
whose content equals the legacy message's response field; the error field is
not consulted for the content. -/
theorem C2_legacy_error_amended (request_id : String) (r : GraphResponse)
    (rest : List PollEvent) (elapsed : Nat)
    (hid : r.request_id = request_id) (hstatus : r.status = "error")
    (helapsed : elapsed ≤ timeout_duration) :
    wait_for_final_response request_id elapsed (.msg (.legacyFormat r) :: rest)
      = ([], .final
          { request_id := request_id, message_type := .Error
          , content := r.response, metadata := none }) := by
  have hng : ¬ (elapsed > timeout_duration) := by omega
  simp [wait_for_final_response, hng, hid, legacyToGraphMessage, hstatus]

/-- Witness for C2 (amended) at a concrete legacy error response. -/
theorem C2_legacy_error_amended_witness :
    wait_for_final_response "rid-2" 0 [.msg (.legacyFormat c2LegacyInput)]
      = ([], .final
          { request_id := "rid-2", message_type := .Error
          , content := "R", metadata := none }) :=
  C2_legacy_error_amended "rid-2" c2LegacyInput [] 0 rfl rfl (by decide)

/-- C6: the Agent Responder's handle never propagates a bridge failure: when
connecting to the bus fails, and when the query call itself fails (connection
or timeout), handle returns Ok(Handled(reply)) where the reply is a locally
synthesized fallback containing the original message body prefixed with a
degraded or offline-mode notice; and every bridge outcome yields
Ok(Handled(..)). -/
theorem C6_agent_handle_never_propagates_bridge_failure
    (context : ResponderContext) (message : String) :
    verjiAgentHandle context (.connectFailed message)
      = .ok (.Handled (some ("[Offline Mode - Redis unavailable]\nYou said: "
          ++ context.message_body)))
    ∧ verjiAgentHandle context (.queryFailed message)
      = .ok (.Handled (some ("[Error communicating with AI service]\nYou said: "
          ++ context.message_body)))
    ∧ (∀ outcome : BridgeOutcome, ∃ reply : Option String,
        verjiAgentHandle context outcome = .ok (.Handled reply)) := by
  refine ⟨rfl, rfl, ?_⟩
  intro outcome
  cases outcome <;> exact ⟨_, rfl⟩

/-- C7: in every execution of query_with_streaming, the subscription to the
response channel is opened strictly before the request is published on the
request channel; moreover the subscribe step precedes every publish step of
the trace. -/
theorem C7_subscribe_before_publish (c : RedisGraphClient) :
    ∃ i j : Nat, i < j
      ∧ (query_effect_trace c)[i]? = some (.subscribeStep c.response_channel)
      ∧ (query_effect_trace c)[j]? = some (.publishStep c.request_channel)
      ∧ (∀ k, (query_effect_trace c)[k]? = some (.publishStep c.request_channel)
          → i < k) := by
  refine ⟨0, 1, Nat.zero_lt_one, rfl, rfl, ?_⟩
  intro k hk
  match k with
  | 0 => simp [query_effect_trace] at hk
  | n + 1 => omega

/-- Witness for C7 on the concretely configured client. -/
theorem C7_subscribe_before_publish_witness :
    ∃ i j : Nat, i < j
      ∧ (query_effect_trace RedisGraphClient.new)[i]?
          = some (.subscribeStep RedisGraphClient.new.response_channel)
      ∧ (query_effect_trace RedisGraphClient.new)[j]?
          = some (.publishStep RedisGraphClient.new.request_channel)
      ∧ (∀ k, (query_effect_trace RedisGraphClient.new)[k]?
            = some (.publishStep RedisGraphClient.new.request_channel) → i < k) :=
  C7_subscribe_before_publish RedisGraphClient.new

/-- C8: when the terminal message for the matching request id has kind Error,
query_with_streaming returns successfully (an ok result, not an error) with
the prefix "Error: " followed by the terminal message's content. -/
theorem C8_error_terminal_returns_ok (request_id : String)
    (events : List PollEvent) (progressContents : List String)
    (t : GraphMessage)
    (hwait : wait_for_final_response request_id 0 events
      = (progressContents, .final t))
    (herr : t.message_type = GraphMessageType.Error) :
    query_with_streaming request_id events
      = (progressContents, .ok ("Error: " ++ t.content)) := by
  simp [query_with_streaming, hwait, herr]

/-- Witness for C8 at a concrete Error-kind terminal message. -/
theorem C8_error_terminal_returns_ok_witness :
    query_with_streaming "rid-8"
      [.msg (.newFormat
        { request_id := "rid-8", message_type := .Error
        , content := "boom", metadata := none })]
      = ([], .ok ("Error: " ++ "boom")) :=
  C8_error_terminal_returns_ok "rid-8"
    [.msg (.newFormat
      { request_id := "rid-8", message_type := .Error
      , content := "boom", metadata := none })]
    []
    { request_id := "rid-8", message_type := .Error
    , content := "boom", metadata := none }
    (by decide) rfl

/-- C9: the ping-pong responder has priority 100; its should_handle returns
true for a context if and only if the trimmed, lowercased message body equals
"ping" or "!ping"; and its handle returns Handled(Some("Pong!")) for every
context (it is a pure function of the context in this embedding, so it has no
side effects). -/
theorem C9_pingpong_contract (context : ResponderContext) :
    pingPongResponder.priority = 100
    ∧ (pingPongResponder.should_handle context = true
        ↔ (toLowerModel (trimModel context.message_body) = "ping"
           ∨ toLowerModel (trimModel context.message_body) = "!ping"))
    ∧ pingPongResponder.handle context = .ok (.Handled (some "Pong!")) := by
  refine ⟨rfl, ?_, rfl⟩
  simp [pingPongResponder]

/-- Witness for C9: a body that trims and lowercases to "ping" is accepted. -/
theorem C9_pingpong_contract_witness :
    pingPongResponder.should_handle
      { sender := "@user:example.org", room_id := "!room:example.org"
      , message_body := " PiNg ", is_direct_mention := false
      , registered_responders := [] } = true :=
  ((C9_pingpong_contract
      { sender := "@user:example.org", room_id := "!room:example.org"
      , message_body := " PiNg ", is_direct_mention := false
      , registered_responders := [] }).2.1).mpr (Or.inl (by decide))

/-- C1: for every registered set of responders and every context,
process_message tries responders in descending priority order with ties
broken by registration order (the registered list is a permutation of the
registrations, sorted descending by priority, and for each priority value
the responders of that priority keep their registration order), invokes
handle only on responders whose should_handle returns true, returns the
reply of the first responder that yields Handled while continuing past those
that yield NotHandled, and returns Ok(None) rather than an error when no
responder handles the message, in particular for a manager with no
registered responders. -/
theorem C1_priority_dispatch (regs : List Responder)
    (context : ResponderContext) :
    ((registerAll regs).responders).Pairwise
        (fun a b => b.priority ≤ a.priority)
    ∧ ((registerAll regs).responders).Perm regs
    ∧ (∀ p : Int,
        ((registerAll regs).responders).filter (fun r => r.priority == p)
          = regs.filter (fun r => r.priority == p))
    ∧ (∀ r ∈ (dispatchChain (registerAll regs).responders context).1,
        r.should_handle context = true)
    ∧ (∀ (pre : List Responder) (r : Responder) (post : List Responder)
          (reply : Option String),
        (registerAll regs).responders = pre ++ r :: post →
        (∀ rr ∈ pre, rr.should_handle context = false
          ∨ rr.handle context = .ok .NotHandled) →
        r.should_handle context = true →
        r.handle context = .ok (.Handled reply) →
        (registerAll regs).process_message context = .ok reply)
    ∧ ((∀ r ∈ (registerAll regs).responders,
          r.should_handle context = false
          ∨ r.handle context = .ok .NotHandled) →
        (registerAll regs).process_message context = .ok none)
    ∧ ResponderManager.new.process_message context = Except.ok none := by
  refine ⟨?_, ?_, ?_, ?_, ?_, ?_, rfl⟩
  · have h := registerAll_go_sorted regs ResponderManager.new
      (by simp [ResponderManager.new])
    exact h.imp (fun hab => by
      simpa [byPriorityDesc, decide_eq_true_eq] using hab)
  · simpa [ResponderManager.new] using
      registerAll_go_perm regs ResponderManager.new
  · intro p
    simpa [ResponderManager.new] using
      registerAll_go_filter p regs ResponderManager.new
  · exact fun r hr => dispatchChain_invoked_should_handle context _ r hr
  · intro pre r post reply heq hpre hs hh
    show (dispatchChain (registerAll regs).responders context).2 = .ok reply
    rw [heq]
    exact dispatchChain_first_handled context pre r post reply hpre hs hh
  · intro h
    exact dispatchChain_none context _ h

/-- Witness for C1: registering the ping-pong responder alone and
dispatching a body that trims and lowercases to "ping" yields the reply
"Pong!" through the first-handled clause at the head of the sorted list. -/
theorem C1_priority_dispatch_witness :
    (registerAll [pingPongResponder]).process_message
      { sender := "@user:example.org", room_id := "!room:example.org"
      , message_body := " PING ", is_direct_mention := false
      , registered_responders := [] } = Except.ok (some "Pong!") :=
  (C1_priority_dispatch [pingPongResponder]
      { sender := "@user:example.org", room_id := "!room:example.org"
      , message_body := " PING ", is_direct_mention := false
      , registered_responders := [] }).2.2.2.2.1
    [] pingPongResponder [] (some "Pong!")
    (by simp [registerAll, ResponderManager.register, ResponderManager.new])
    (by simp)
    (by decide)
    rfl

/-- C3: for every sequence of bus messages (with no empty poll windows)
whose matching traffic for the request id consists of zero or more Progress
messages followed by one terminal message, query_with_streaming invokes
on_progress exactly once per matching Progress message, in arrival order,
strictly before the call resolves (the invocation list is produced by the
wait loop before the final text is computed from the terminal message), and
the final returned text is derived from the terminal message's content
alone, with no Progress content included in it. -/
theorem C3_progress_streaming (request_id : String) (events : List PollEvent)
    (pms : List GraphMessage) (t : GraphMessage)
    (hnopoll : PollEvent.pollTimeout ∉ events)
    (hmatch : events.filterMap (matchingMessage request_id) = pms ++ [t])
    (hpms : ∀ mm ∈ pms, mm.message_type = GraphMessageType.Progress)
    (hterm : t.message_type ≠ GraphMessageType.Progress) :
    query_with_streaming request_id events
      = (pms.map GraphMessage.content,
         .ok (if t.message_type = GraphMessageType.Error
              then "Error: " ++ t.content else t.content)) := by
  have hwait := wait_progress_then_terminal request_id events 0
    (by simp [timeout_duration]) hnopoll pms t hmatch hpms hterm
  cases htype : t.message_type with
  | Progress => exact absurd htype hterm
  | FinalResponse => simp [query_with_streaming, hwait, htype]
  | HitlRequest => simp [query_with_streaming, hwait, htype]
  | Error => simp [query_with_streaming, hwait, htype]

/-- Witness for C3: two progress messages then a final response; on_progress
receives both contents in order and the final text is the terminal content. -/
theorem C3_progress_streaming_witness :
    query_with_streaming "rid-3"
      [ .msg (.newFormat
          { request_id := "rid-3", message_type := .Progress
          , content := "step1", metadata := none })
      , .msg (.newFormat
          { request_id := "rid-3", message_type := .Progress
          , content := "step2", metadata := none })
      , .msg (.newFormat
          { request_id := "rid-3", message_type := .FinalResponse
          , content := "done", metadata := none }) ]
      = (["step1", "step2"], .ok "done") := by
  have h := C3_progress_streaming "rid-3"
    [ .msg (.newFormat
        { request_id := "rid-3", message_type := .Progress
        , content := "step1", metadata := none })
    , .msg (.newFormat
        { request_id := "rid-3", message_type := .Progress
        , content := "step2", metadata := none })
    , .msg (.newFormat
        { request_id := "rid-3", message_type := .FinalResponse
        , content := "done", metadata := none }) ]
    [ { request_id := "rid-3", message_type := .Progress
      , content := "step1", metadata := none }
    , { request_id := "rid-3", message_type := .Progress
      , content := "step2", metadata := none } ]
    { request_id := "rid-3", message_type := .FinalResponse
    , content := "done", metadata := none }
    (by decide) (by decide) (by decide) (by decide)
  simpa using h

/-- C4: the correlation wait loop ignores every bus message whose request id
does not match the outstanding request (including a decoy terminal message
with a different id) and discards every payload that parses as neither the
new nor the legacy shape, continuing to wait in both cases: dropping such a
poll outcome leaves the result unchanged; the call resolves with a final
message only if that message carries the matching request id; and when no
matching terminal message is present among the poll outcomes the loop never
resolves with a value, only with a timeout or an ended stream. -/
theorem C4_correlation_filtering (request_id : String) :
    (∀ (e : PollEvent) (events : List PollEvent) (elapsed : Nat),
        matchingMessage request_id e = none → e ≠ PollEvent.pollTimeout →
        wait_for_final_response request_id elapsed (e :: events)
          = wait_for_final_response request_id elapsed events)
    ∧ (∀ (events : List PollEvent) (elapsed : Nat) (ps : List String)
          (m : GraphMessage),
        wait_for_final_response request_id elapsed events = (ps, .final m) →
        m.request_id = request_id)
    ∧ (∀ (events : List PollEvent) (elapsed : Nat),
        (∀ e ∈ events, isMatchingTerminal request_id e = false) →
        (wait_for_final_response request_id elapsed events).2 = .timeout
        ∨ (wait_for_final_response request_id elapsed events).2
            = .streamEnded) := by
  refine ⟨?_, ?_, ?_⟩
  · intro e events elapsed h1 h2
    exact wait_skips_unmatched request_id e events elapsed h1 h2
  · intro events elapsed ps m h
    exact (wait_final_inv request_id events elapsed ps m h).1
  · intro events elapsed h
    exact wait_no_terminal_no_final request_id events elapsed h

/-- Witness for C4: a decoy terminal message with a different request id is
ignored by the wait loop. -/
theorem C4_correlation_filtering_witness :
    wait_for_final_response "rid-4" 0
        [.msg (.newFormat
          { request_id := "rid-other", message_type := .FinalResponse
          , content := "decoy", metadata := none })]
      = wait_for_final_response "rid-4" 0 [] :=
  (C4_correlation_filtering "rid-4").1
    (.msg (.newFormat
      { request_id := "rid-other", message_type := .FinalResponse
      , content := "decoy", metadata := none }))
    [] 0 (by decide) (by decide)

/-- C5: if no terminal message with a matching request id is observed and the
empty one-second poll windows push the elapsed clock past the 30-unit
deadline measured from the start of the wait, then the wait ends in timeout
and query_with_streaming fails with the timeout error condition instead of
returning a value. -/
theorem C5_timeout_failure (request_id : String) (events : List PollEvent)
    (hnoterm : ∀ e ∈ events, isMatchingTerminal request_id e = false)
    (htime : timeout_duration
      < events.countP (fun e => e == PollEvent.pollTimeout)) :
    (wait_for_final_response request_id 0 events).2 = .timeout
    ∧ (query_with_streaming request_id events).2
        = .error "Timeout waiting for response from vagent-graph" := by
  have h := wait_timeout_of_no_terminal request_id events 0 hnoterm
    (by simpa using htime)
  exact ⟨h, by simp [query_with_streaming, h]⟩

/-- Witness for C5: thirty-one empty poll windows and no traffic produce the
timeout failure. -/
theorem C5_timeout_failure_witness :
    (wait_for_final_response "rid-5" 0
        (List.replicate 31 PollEvent.pollTimeout)).2 = .timeout
    ∧ (query_with_streaming "rid-5"
        (List.replicate 31 PollEvent.pollTimeout)).2
        = .error "Timeout waiting for response from vagent-graph" :=
  C5_timeout_failure "rid-5" (List.replicate 31 PollEvent.pollTimeout)
    (by decide) (by decide)

/-- C10: the wait loop never returns a Progress-kind message: every returned
final message has kind FinalResponse, HitlRequest or Error, so the Progress
arm of the final match in query_with_streaming is unreachable. -/
theorem C10_wait_never_returns_progress (request_id : String) (elapsed : Nat)
    (events : List PollEvent) (progressContents : List String)
    (m : GraphMessage)
    (hwait : wait_for_final_response request_id elapsed events
      = (progressContents, .final m)) :
    m.message_type = GraphMessageType.FinalResponse
    ∨ m.message_type = GraphMessageType.HitlRequest
    ∨ m.message_type = GraphMessageType.Error := by
  induction events generalizing elapsed progressContents with
  | nil =>
    by_cases h : elapsed > timeout_duration <;>
      simp [wait_for_final_response, h] at hwait
  | cons e rest ih =>
    by_cases h : elapsed > timeout_duration
    · simp [wait_for_final_response, h] at hwait
    · cases e with
      | pollTimeout =>
        simp only [wait_for_final_response, if_neg h] at hwait
        exact ih _ _ hwait
      | msg p =>
        cases p with
        | newFormat mm =>
          by_cases hid : mm.request_id = request_id
          · cases htype : mm.message_type with
            | Progress =>
              simp only [wait_for_final_response, if_neg h, hid, if_true,
                htype] at hwait
              have h2 : (wait_for_final_response request_id elapsed rest).2
                  = .final m := by
                have := congrArg Prod.snd hwait
                simpa using this
              exact ih elapsed (wait_for_final_response request_id elapsed rest).1
                (by rw [← h2])
            | FinalResponse =>
              simp only [wait_for_final_response, if_neg h, hid, if_true,
                htype] at hwait
              have : m = mm := by
                have := congrArg Prod.snd hwait
                simpa using this.symm
              subst this
              exact Or.inl htype
            | HitlRequest =>
              simp only [wait_for_final_response, if_neg h, hid, if_true,
                htype] at hwait
              have : m = mm := by
                have := congrArg Prod.snd hwait
                simpa using this.symm
              subst this
              exact Or.inr (Or.inl htype)
            | Error =>
              simp only [wait_for_final_response, if_neg h, hid, if_true,
                htype] at hwait
              have : m = mm := by
                have := congrArg Prod.snd hwait
                simpa using this.symm
              subst this
              exact Or.inr (Or.inr htype)
          · simp only [wait_for_final_response, if_neg h, hid, if_false] at hwait
            exact ih _ _ hwait
        | legacyFormat r =>
          by_cases hid : r.request_id = request_id
          · simp only [wait_for_final_response, if_neg h, hid, if_true] at hwait
            have : m = legacyToGraphMessage r := by
              have := congrArg Prod.snd hwait
              simpa using this.symm
            subst this
            simp only [legacyToGraphMessage]
            split
            · exact Or.inr (Or.inr rfl)
            · exact Or.inl rfl
          · simp only [wait_for_final_response, if_neg h, hid, if_false] at hwait
            exact ih _ _ hwait
        | malformed =>
          simp only [wait_for_final_response, if_neg h] at hwait
          exact ih _ _ hwait

/-- Witness for C10 at a concrete terminal message. -/
theorem C10_wait_never_returns_progress_witness :
    ({ request_id := "rid-10", message_type := .FinalResponse
     , content := "done", metadata := none } : GraphMessage).message_type
        = GraphMessageType.FinalResponse
    ∨ ({ request_id := "rid-10", message_type := .FinalResponse
       , content := "done", metadata := none } : GraphMessage).message_type
        = GraphMessageType.HitlRequest
    ∨ ({ request_id := "rid-10", message_type := .FinalResponse
       , content := "done", metadata := none } : GraphMessage).message_type
        = GraphMessageType.Error :=
  C10_wait_never_returns_progress "rid-10" 0
    [.msg (.newFormat
      { request_id := "rid-10", message_type := .FinalResponse
      , content := "done", metadata := none })]
    []
    { request_id := "rid-10", message_type := .FinalResponse
    , content := "done", metadata := none }
    (by decide)

end VerjiBot
